import Mathlib

/-!
Verification of the wake-word detection reaction pipeline of
`src/plugins/wake_word.py` (py-xiaozhi).

We shallowly embed the three cores of that file:

* the alert-audio resolver inside `WakeWordPlugin._on_detected`
  (exact-match pass over the configured map, then a single substring pass
  that checks, per key, membership in `wake_word` and then in `full_text`);
* the detection-reaction coordinator (`_on_detected` itself), with its two
  try/except-isolated stages modelled as trace-producing functions whose
  boolean component records whether the stage body raised (the handler
  swallows the exception and logs);
* the tiered playback backend `_play_audio_file` and the error callback
  `_on_error`, modelled over an environment recording which external calls
  raise, with `Except` results where an exception could escape a scope.

The Python dict `audio_map` is embedded as an insertion-ordered association
list with optional keys (`None` keys occur in the source's guard); Python
string containment (`key in s`) is `pyIn`, and Python truthiness of an
optional string is `ftTruthy`.
-/

namespace WakeWord

/-- Python `needle in hay` on lists of characters: contiguous sublist test.
`hasSubstr hay needle` is true iff `needle` occurs contiguously in `hay`;
the empty needle occurs in everything, as in Python. -/
def hasSubstr (hay needle : List Char) : Bool :=
  needle.isPrefixOf hay ||
    (match hay with
     | [] => false
     | _ :: t => hasSubstr t needle)

/-- Python `needle in hay` for strings. -/
def pyIn (needle hay : String) : Bool :=
  hasSubstr hay.data needle.data

/-- `detected = str(wake_word) if wake_word is not None else ""`
(wake_word is a string or `None`). -/
def detStr : Option String → String
  | none => ""
  | some w => w

/-- Python truthiness of the optional `full_text`: non-`None` and non-empty. -/
def ftTruthy : Option String → Bool
  | none => false
  | some s => decide (s ≠ "")

/-- `str(full_text)` where `full_text` is a string (`None` is excluded by
the truthiness guard before this is used). -/
def ftStr : Option String → String
  | none => ""
  | some s => s

/-- One entry of the configured `ALERT_AUDIO_MAP`: a key (possibly `None`)
and a path value. -/
abbrev Entry := Option String × String

/-- The first loop of the resolver (`wake_word.py` lines 104-112):
iterate the map in insertion order, skip `None` keys, and return the path of
the first key equal to `detected`. -/
def exactPass (d : String) : List Entry → Option String
  | [] => none
  | (none, _) :: rest => exactPass d rest
  | (some k, p) :: rest => if d = k then some p else exactPass d rest

/-- The second loop of the resolver (`wake_word.py` lines 115-127): a single
iteration in insertion order that, per key, first tests `key in detected`
and then, when `full_text` is truthy, `key in str(full_text)`; the first key
passing either test wins. `None` keys are skipped. -/
def substrPass (d : String) (ft : Option String) : List Entry → Option String
  | [] => none
  | (none, _) :: rest => substrPass d ft rest
  | (some k, p) :: rest =>
      if pyIn k d then some p
      else if ftTruthy ft && pyIn k (ftStr ft) then some p
      else substrPass d ft rest

/-- The full resolver: the substring loop runs only when the exact loop left
`selected_path` equal to `None` (`wake_word.py` line 115). -/
def resolve (w ft : Option String) (m : List Entry) : Option String :=
  match exactPass (detStr w) m with
  | some p => some p
  | none => substrPass (detStr w) ft m

theorem exactPass_mem (w p : String) :
    ∀ m : List Entry, (m.map Prod.fst).Nodup → (some w, p) ∈ m →
      exactPass w m = some p := by
  intro m
  induction m with
  | nil => intro _ h; cases h
  | cons hd t ih =>
      intro hnd hmem
      obtain ⟨k?, q⟩ := hd
      rw [List.map_cons, List.nodup_cons] at hnd
      cases k? with
      | none =>
          have ht : (some w, p) ∈ t := by
            rcases List.mem_cons.mp hmem with h | h
            · exact absurd h (by simp)
            · exact h
          simpa [exactPass] using ih hnd.2 ht
      | some k =>
          by_cases hk : w = k
          · subst hk
            have hq : q = p := by
              rcases List.mem_cons.mp hmem with h | h
              · exact (Prod.mk.injEq _ _ _ _ ▸ h).2.symm
              · exact absurd (List.mem_map.mpr ⟨_, h, rfl⟩) hnd.1
            simp [exactPass, hq]
          · have ht : (some w, p) ∈ t := by
              rcases List.mem_cons.mp hmem with h | h
              · exact absurd h (by simp [hk])
              · exact h
            simpa [exactPass, hk] using ih hnd.2 ht

/-- **C1.** If the (insertion-ordered, duplicate-free) `audio_map` contains a
key exactly equal to the wake word, the resolver returns that key's path,
whatever substring matches exist elsewhere in the map: the exact-match loop
runs to completion before the substring loop is even entered. -/
theorem resolve_exact_key_wins (m : List Entry) (w p : String) (ft : Option String)
    (hnd : (m.map Prod.fst).Nodup) (hmem : (some w, p) ∈ m) :
    resolve (some w) ft m = some p := by
  unfold resolve
  rw [show detStr (some w) = w from rfl, exactPass_mem w p m hnd hmem]

/-- Witness for C1, spec Scenario 1: with `{"hi": "a.wav", "hi there": "b.wav"}`
and wake word `"hi there"`, the exact match on `"hi there"` wins over the
earlier substring key `"hi"`, giving `"b.wav"`. -/
theorem resolve_exact_key_wins_witness :
    resolve (some "hi there") none
        [(some "hi", "a.wav"), (some "hi there", "b.wav")] = some "b.wav" :=
  resolve_exact_key_wins
    [(some "hi", "a.wav"), (some "hi there", "b.wav")]
    "hi there" "b.wav" none (by decide) (by decide)

/-- The per-key test of the substring loop: `None` keys never hit; a string
key hits when it occurs in `detected`, or `full_text` is truthy and the key
occurs in `str(full_text)`. -/
def substrHit (d : String) (ft : Option String) : Entry → Bool
  | (none, _) => false
  | (some k, _) => pyIn k d || (ftTruthy ft && pyIn k (ftStr ft))

theorem substrPass_eq_find (d : String) (ft : Option String) :
    ∀ m : List Entry,
      substrPass d ft m = Option.map Prod.snd (m.find? (substrHit d ft)) := by
  intro m
  induction m with
  | nil => rfl
  | cons hd t ih =>
      obtain ⟨k?, q⟩ := hd
      cases k? with
      | none => simpa [substrPass, List.find?, substrHit] using ih
      | some k =>
          by_cases h1 : pyIn k d
          · simp [substrPass, List.find?, substrHit, h1]
          · by_cases h2 : ftTruthy ft && pyIn k (ftStr ft)
            · simp [substrPass, List.find?, substrHit, h1, h2]
            · simpa [substrPass, List.find?, substrHit, h1, h2] using ih

/-- **C2, counterexample.** `audio_map = [("aa","1.wav"), ("bb","2.wav")]`,
`wake_word = "xbbx"`, `full_text = "zaaz"`: there is no exact match, `"bb"`
is the (unique, hence first) key that is a substring of the wake word, and
the earlier key `"aa"` is a substring of `full_text` only — yet the resolver
returns `"1.wav"`, not `"2.wav"` as the claim requires, because the single
substring loop tests `full_text` for each key before moving to the next key. -/
theorem resolve_first_wakeword_substring_refuted :
    exactPass "xbbx" [(some "aa", "1.wav"), (some "bb", "2.wav")] = none ∧
    pyIn "aa" "xbbx" = false ∧ pyIn "bb" "xbbx" = true ∧ pyIn "aa" "zaaz" = true ∧
    resolve (some "xbbx") (some "zaaz")
        [(some "aa", "1.wav"), (some "bb", "2.wav")] = some "1.wav" ∧
    resolve (some "xbbx") (some "zaaz")
        [(some "aa", "1.wav"), (some "bb", "2.wav")] ≠ some "2.wav" := by
  refine ⟨by decide, by decide, by decide, by decide, by decide, by decide⟩

/-- **C2, amended.** When no key exactly matches the wake word, the resolver
returns the path of the first key in insertion order that is a substring of
the wake word OR — `full_text` being non-empty — a substring of `full_text`:
`wake_word` and `full_text` are tested in the same iteration, so an earlier
key matching only `full_text` wins over a later key matching the wake word. -/
theorem resolve_no_exact_first_hit (m : List Entry) (w ft : Option String)
    (hex : exactPass (detStr w) m = none) :
    resolve w ft m = Option.map Prod.snd (m.find? (substrHit (detStr w) ft)) := by
  unfold resolve
  rw [hex, substrPass_eq_find]

/-- Witness for the amended C2 at the counterexample's input: the first hit
of the combined per-key test is `("aa", "1.wav")` (via `full_text`). -/
theorem resolve_no_exact_first_hit_witness :
    resolve (some "xbbx") (some "zaaz") [(some "aa", "1.wav"), (some "bb", "2.wav")] =
      Option.map Prod.snd
        (List.find? (substrHit (detStr (some "xbbx")) (some "zaaz"))
          [(some "aa", "1.wav"), (some "bb", "2.wav")]) :=
  resolve_no_exact_first_hit
    [(some "aa", "1.wav"), (some "bb", "2.wav")]
    (some "xbbx") (some "zaaz") (by decide)

/-- **C6, counterexample.** The empty-string key is not skipped: with
`audio_map = [("", "x.wav")]` and wake word `"hello"` the exact loop fails but
the substring loop matches, since Python's `"" in "hello"` is true; the empty
key alone determines the returned path (the same map without it yields none). -/
theorem resolve_empty_key_skipped_refuted :
    resolve (some "hello") none [(some "", "x.wav")] = some "x.wav" ∧
    resolve (some "hello") none ([] : List Entry) = none := by
  exact ⟨by decide, by decide⟩

/-- Entries whose key is `None`, the only ones the source's
`if key is None: continue` guard skips. -/
def dropNullKeys (m : List Entry) : List Entry :=
  m.filter (fun e => e.1.isSome)

theorem exactPass_dropNullKeys (d : String) :
    ∀ m : List Entry, exactPass d (dropNullKeys m) = exactPass d m := by
  intro m
  induction m with
  | nil => rfl
  | cons hd t ih =>
      obtain ⟨k?, q⟩ := hd
      cases k? with
      | none => simpa [dropNullKeys, exactPass] using ih
      | some k =>
          by_cases h : d = k <;>
            simp_all [dropNullKeys, exactPass, h]

theorem substrPass_dropNullKeys (d : String) (ft : Option String) :
    ∀ m : List Entry, substrPass d ft (dropNullKeys m) = substrPass d ft m := by
  intro m
  induction m with
  | nil => rfl
  | cons hd t ih =>
      obtain ⟨k?, q⟩ := hd
      cases k? with
      | none => simpa [dropNullKeys, substrPass] using ih
      | some k =>
          by_cases h1 : pyIn k d
          · simp [dropNullKeys, substrPass, h1]
          · by_cases h2 : ftTruthy ft && pyIn k (ftStr ft) <;>
              simp_all [dropNullKeys, substrPass, h1, h2]

/-- **C6, amended.** `None` keys are skipped without error and never
determine the returned path — removing every `None`-keyed entry leaves the
resolver's result unchanged on all inputs. Empty-STRING keys, however, are
NOT skipped: an empty key can determine the path (it matches any wake word
in the substring loop, see the counterexample). -/
theorem resolve_ignores_null_keys (w ft : Option String) (m : List Entry) :
    resolve w ft (dropNullKeys m) = resolve w ft m := by
  unfold resolve
  rw [exactPass_dropNullKeys, substrPass_dropNullKeys]

/-- Externally observable calls made by `_on_detected`:
the Stage-A state-machine calls, the Stage-B playback dispatch
(`run_in_executor` on `_play_audio_file(path, blocking)`), and the
`logger.error` call of an `except` handler. -/
inductive Action where
  | abortSpeaking
  | clearAudioQueue
  | startAutoConversation
  | dispatchPlayback : String → Bool → Action
  | logError
deriving DecidableEq, Repr

/-- The host application as `_on_detected` probes it: capability flags,
the `is_speaking()` answer, the audio-plugin/codec presence, and one flag per
external call recording whether that call raises when made. -/
structure App where
  hasDeviceState : Bool
  hasStartAuto : Bool
  isSpeakingThrows : Bool
  isSpeaking : Bool
  abortThrows : Bool
  hasAudioPluginWithCodec : Bool
  clearQueueThrows : Bool
  startAutoThrows : Bool

/-- Stage A of `_on_detected` (lines 74-84), inside its `try`: the list of
calls issued, paired with `true` iff the body ran to completion (i.e. no
exception reached the `except` handler). Calls made before a raising call
still appear in the trace. -/
def stageA (app : App) : List Action × Bool :=
  if app.hasDeviceState && app.hasStartAuto then
    if app.isSpeakingThrows then ([], false)
    else if app.isSpeaking then
      if app.abortThrows then ([], false)
      else if app.hasAudioPluginWithCodec then
        if app.clearQueueThrows then ([Action.abortSpeaking], false)
        else ([Action.abortSpeaking, Action.clearAudioQueue], true)
      else ([Action.abortSpeaking], true)
    else
      if app.startAutoThrows then ([], false)
      else ([Action.startAutoConversation], true)
  else ([], true)

/-- Configuration and Stage-B failure environment: the alert-audio map and
blocking flag read per event, plus whether the config read or the executor
dispatch raises. -/
structure Cfg where
  audioMap : List Entry
  blocking : Bool
  configThrows : Bool
  executorThrows : Bool

/-- Stage B of `_on_detected` (lines 89-136), inside its `try`: read the
config, skip when the map is falsy, resolve, and dispatch at most one
playback when the selected path is truthy (non-`None` and non-empty). -/
def stageB (cfg : Cfg) (w ft : Option String) : List Action × Bool :=
  if cfg.configThrows then ([], false)
  else if cfg.audioMap.isEmpty then ([], true)
  else
    match resolve w ft cfg.audioMap with
    | none => ([], true)
    | some p =>
        if p = "" then ([], true)
        else if cfg.executorThrows then ([], false)
        else ([Action.dispatchPlayback p cfg.blocking], true)

/-- A stage body wrapped in its `try/except` handler: the handler logs and
swallows, so the stage always yields a plain trace. -/
def runStage (r : List Action × Bool) : List Action :=
  r.1 ++ (if r.2 then [] else [Action.logError])

/-- `WakeWordPlugin._on_detected`: Stage A under its handler, then Stage B
under its handler; the whole handler never lets an exception escape. -/
def onDetected (app : App) (cfg : Cfg) (w ft : Option String) : List Action :=
  runStage (stageA app) ++ runStage (stageB cfg w ft)

/-- Selector for the Stage-A state-machine calls. -/
def isStateAction : Action → Bool
  | Action.abortSpeaking => true
  | Action.clearAudioQueue => true
  | Action.startAutoConversation => true
  | _ => false

/-- Selector for playback dispatches. -/
def isDispatch : Action → Bool
  | Action.dispatchPlayback _ _ => true
  | _ => false

theorem stageB_no_stateAction (cfg : Cfg) (w ft : Option String) :
    ((stageB cfg w ft).1).filter isStateAction = [] := by
  unfold stageB
  split
  · rfl
  · split
    · rfl
    · split
      · rfl
      · split
        · rfl
        · split
          · rfl
          · simp [isStateAction]

theorem runStage_filter_stateAction (r : List Action × Bool) :
    (runStage r).filter isStateAction = r.1.filter isStateAction := by
  unfold runStage
  rcases r with ⟨t, ok⟩
  cases ok <;> simp [isStateAction]

/-- **C3.** On a detection event with the capability set present and no call
raising: if the application is speaking, the state-machine calls are exactly
`abort_speaking(WAKE_WORD_DETECTED)` followed by `clear_audio_queue()` when
an audio plugin with a codec is registered (and `start_auto_conversation()`
is never called); if it is not speaking, the only state-machine call is
`start_auto_conversation()`. -/
theorem onDetected_speaking_branch (app : App) (cfg : Cfg) (w ft : Option String)
    (hds : app.hasDeviceState = true) (hsa : app.hasStartAuto = true)
    (h1 : app.isSpeakingThrows = false) (h2 : app.abortThrows = false)
    (h3 : app.clearQueueThrows = false) (h4 : app.startAutoThrows = false) :
    (app.isSpeaking = true →
      (onDetected app cfg w ft).filter isStateAction =
        Action.abortSpeaking ::
          (if app.hasAudioPluginWithCodec then [Action.clearAudioQueue] else [])) ∧
    (app.isSpeaking = false →
      (onDetected app cfg w ft).filter isStateAction = [Action.startAutoConversation]) := by
  have hB := stageB_no_stateAction cfg w ft
  constructor
  · intro hs
    cases hcodec : app.hasAudioPluginWithCodec <;>
      simp [onDetected, List.filter_append, runStage_filter_stateAction,
        stageA, hds, hsa, h1, h2, h3, h4, hs, hcodec, hB, isStateAction]
  · intro hs
    simp [onDetected, List.filter_append, runStage_filter_stateAction,
      stageA, hds, hsa, h1, h2, h3, h4, hs, hB, isStateAction]

/-- Witness for C3: a speaking app with codec-bearing audio plugin yields
abort-then-clear and no auto-conversation start; flipping `isSpeaking` yields
the auto-conversation start alone. -/
theorem onDetected_speaking_branch_witness :
    ((onDetected ⟨true, true, false, true, false, true, false, false⟩
        ⟨[], false, false, false⟩ none none).filter isStateAction =
      [Action.abortSpeaking, Action.clearAudioQueue]) ∧
    ((onDetected ⟨true, true, false, false, false, true, false, false⟩
        ⟨[], false, false, false⟩ none none).filter isStateAction =
      [Action.startAutoConversation]) := by
  constructor
  · have h := onDetected_speaking_branch
      ⟨true, true, false, true, false, true, false, false⟩
      ⟨[], false, false, false⟩ none none rfl rfl rfl rfl rfl rfl
    simpa using h.1 rfl
  · have h := onDetected_speaking_branch
      ⟨true, true, false, false, false, true, false, false⟩
      ⟨[], false, false, false⟩ none none rfl rfl rfl rfl rfl rfl
    exact h.2 rfl

theorem stageA_no_dispatch (app : App) :
    ((stageA app).1).countP isDispatch = 0 := by
  unfold stageA
  split
  · split
    · rfl
    · split
      · split
        · rfl
        · split
          · split <;> simp [isDispatch]
          · simp [isDispatch]
      · split
        · rfl
        · simp [isDispatch]
  · rfl

theorem stageB_dispatch_le_one (cfg : Cfg) (w ft : Option String) :
    ((stageB cfg w ft).1).countP isDispatch ≤ 1 := by
  unfold stageB
  split
  · simp
  · split
    · simp
    · split
      · simp
      · split
        · simp
        · split
          · simp
          · simp [isDispatch]

theorem runStage_countP_dispatch (r : List Action × Bool) :
    (runStage r).countP isDispatch = r.1.countP isDispatch := by
  unfold runStage
  rcases r with ⟨t, ok⟩
  cases ok <;> simp [isDispatch]

/-- **C4.** Each invocation of `_on_detected` issues at most one playback
dispatch: Stage A never dispatches, and Stage B breaks out of each
resolution loop at the first match and makes at most one `run_in_executor`
call. -/
theorem onDetected_at_most_one_dispatch (app : App) (cfg : Cfg) (w ft : Option String) :
    (onDetected app cfg w ft).countP isDispatch ≤ 1 := by
  unfold onDetected
  rw [List.countP_append, runStage_countP_dispatch, runStage_countP_dispatch,
    stageA_no_dispatch]
  simpa using stageB_dispatch_le_one cfg w ft

/-- **C5.** The two stages are fault-isolated: even when the Stage-A body
raises (its handler logs and swallows), the complete Stage-B trace still
follows it; and when the Stage-B body raises, `_on_detected` still returns
normally — the full trace is the two handled stages and nothing escapes. -/
theorem onDetected_fault_isolated (app : App) (cfg : Cfg) (w ft : Option String)
    (hA : (stageA app).2 = false) :
    onDetected app cfg w ft =
      ((stageA app).1 ++ [Action.logError]) ++ runStage (stageB cfg w ft) ∧
    ((stageB cfg w ft).2 = false →
      onDetected app cfg w ft =
        ((stageA app).1 ++ [Action.logError]) ++
          ((stageB cfg w ft).1 ++ [Action.logError])) := by
  constructor
  · unfold onDetected runStage
    rw [hA]
    simp
  · intro hB
    unfold onDetected runStage
    rw [hA, hB]
    simp

/-- Witness for C5: an app whose `is_speaking()` raises and a config whose
read raises — Stage A's failure is logged, Stage B still runs (and its own
failure is logged too), and `_on_detected` returns a plain trace. -/
theorem onDetected_fault_isolated_witness :
    onDetected ⟨true, true, true, false, false, false, false, false⟩
        ⟨[(some "hi", "a.wav")], false, true, false⟩ (some "hi") none =
      (([] : List Action) ++ [Action.logError]) ++ (([] : List Action) ++ [Action.logError]) := by
  have h := onDetected_fault_isolated
    ⟨true, true, true, false, false, false, false, false⟩
    ⟨[(some "hi", "a.wav")], false, true, false⟩ (some "hi") none rfl
  exact h.2 rfl

/-- **C10.** When resolution selects an empty-string path (the first matching
key maps to `""`), `_on_detected` dispatches no playback at all for the
event: the loops have already stopped at that key, and the final
`if selected_path:` guard is falsy on the empty string. -/
theorem onDetected_empty_path_no_dispatch (app : App) (cfg : Cfg) (w ft : Option String)
    (hres : resolve w ft cfg.audioMap = some "") :
    (onDetected app cfg w ft).countP isDispatch = 0 := by
  unfold onDetected
  rw [List.countP_append, runStage_countP_dispatch, runStage_countP_dispatch,
    stageA_no_dispatch]
  unfold stageB
  split
  · rfl
  · split
    · rfl
    · rw [hres]
      simp

/-- Witness for C10: the first substring match `"hi"` maps to `""`, a later
key `"yo"` maps to `"x.wav"` and also matches — still nothing is dispatched. -/
theorem onDetected_empty_path_no_dispatch_witness :
    (onDetected ⟨false, false, false, false, false, false, false, false⟩
        ⟨[(some "hi", ""), (some "yo", "x.wav")], false, false, false⟩
        (some "hi yo") none).countP isDispatch = 0 :=
  onDetected_empty_path_no_dispatch
    ⟨false, false, false, false, false, false, false, false⟩
    ⟨[(some "hi", ""), (some "yo", "x.wav")], false, false, false⟩
    (some "hi yo") none (by decide)

/-- Observable events of `_play_audio_file`: the warning logs of each guard
and tier, successful tier playback (with the resolved path and blocking
mode), and the outermost handler's error log. -/
inductive PlayEvent where
  | warnMissingFile : String → PlayEvent
  | winsoundPlay : String → Bool → PlayEvent
  | warnWinsoundFailed
  | simpleaudioPlay : String → Bool → PlayEvent
  | warnSimpleaudioFailed
  | warnNoBackend
  | logPlayError
deriving DecidableEq, Repr

/-- The environment `_play_audio_file` runs in: the path operations it
delegates to (`os.path.expanduser`, `Path.is_absolute`, resolution against
the project root, `Path.exists`), the platform test `os.name == "nt"`, and
one flag per failure point recording whether that code raises. -/
structure PlayEnv where
  expandUser : String → String
  isAbsolute : String → Bool
  resolveFromRoot : String → String
  fileExists : String → Bool
  osIsWindows : Bool
  pathOpsThrow : Bool
  winsoundThrows : Bool
  simpleaudioThrows : Bool

/-- The absolute path `_play_audio_file` checks and plays: expand the home
shorthand, then resolve against the project root unless already absolute
(lines 152-156). -/
def resolvedPath (env : PlayEnv) (fp : String) : String :=
  let e := env.expandUser fp
  if env.isAbsolute e then e else env.resolveFromRoot e

/-- The `simpleaudio` tier (lines 175-186), which runs on non-Windows hosts
or after the winsound tier failed: its own `try/except` turns a raise into a
logged warning, and exhaustion adds the final no-backend warning. -/
def simpleaudioTier (env : PlayEnv) (p : String) (blocking : Bool) : List PlayEvent :=
  if env.simpleaudioThrows then
    [PlayEvent.warnSimpleaudioFailed, PlayEvent.warnNoBackend]
  else [PlayEvent.simpleaudioPlay p blocking]

/-- The body of `_play_audio_file` inside the outermost `try` (lines
148-186). `Except.error` marks an exception escaping the body (only the
unguarded path operations can do that; every tier has its own handler),
carrying the events already emitted. -/
def playBody (env : PlayEnv) (fp : String) (blocking : Bool) :
    Except (List PlayEvent) (List PlayEvent) :=
  if fp = "" then Except.ok []
  else if env.pathOpsThrow then Except.error []
  else
    let p := resolvedPath env fp
    if env.fileExists p then
      if env.osIsWindows then
        if env.winsoundThrows then
          Except.ok (PlayEvent.warnWinsoundFailed :: simpleaudioTier env p blocking)
        else Except.ok [PlayEvent.winsoundPlay p blocking]
      else Except.ok (simpleaudioTier env p blocking)
    else Except.ok [PlayEvent.warnMissingFile p]

/-- `_play_audio_file` itself: the body under the outermost `except`, which
logs the error and returns normally (lines 187-188). -/
def playAudioFile (env : PlayEnv) (fp : String) (blocking : Bool) :
    Except (List PlayEvent) (List PlayEvent) :=
  match playBody env fp blocking with
  | Except.ok evs => Except.ok evs
  | Except.error evs => Except.ok (evs ++ [PlayEvent.logPlayError])

/-- **C7.** `_play_audio_file` never propagates an exception to its caller,
for any input and any combination of failing collaborators: each tier's
raise is absorbed by that tier's handler, tier exhaustion only logs a
warning, and anything escaping the body is swallowed by the outermost
handler — the result is always a normal return. -/
theorem playAudioFile_never_raises (env : PlayEnv) (fp : String) (blocking : Bool) :
    ∃ evs, playAudioFile env fp blocking = Except.ok evs := by
  unfold playAudioFile
  cases h : playBody env fp blocking with
  | ok evs => exact ⟨evs, rfl⟩
  | error evs => exact ⟨evs ++ [PlayEvent.logPlayError], rfl⟩

/-- **C8.** If the resolved absolute path does not exist, `_play_audio_file`
logs the missing-file warning and returns normally, attempting no playback
tier. -/
theorem playAudioFile_missing_file (env : PlayEnv) (fp : String) (blocking : Bool)
    (hfp : fp ≠ "") (hops : env.pathOpsThrow = false)
    (hex : env.fileExists (resolvedPath env fp) = false) :
    playAudioFile env fp blocking =
      Except.ok [PlayEvent.warnMissingFile (resolvedPath env fp)] := by
  unfold playAudioFile playBody
  simp [hfp, hops, hex]

/-- Witness for C8 in an environment whose file-existence check always
fails. -/
theorem playAudioFile_missing_file_witness :
    playAudioFile
        ⟨id, fun _ => true, id, fun _ => false, false, false, false, false⟩
        "a.wav" false =
      Except.ok [PlayEvent.warnMissingFile
        (resolvedPath ⟨id, fun _ => true, id, fun _ => false, false, false, false, false⟩
          "a.wav")] :=
  playAudioFile_missing_file
    ⟨id, fun _ => true, id, fun _ => false, false, false, false, false⟩
    "a.wav" false (by decide) rfl rfl

/-- The host application as `_on_error` probes it: does it expose
`set_chat_message`, and does that call raise. -/
structure ErrApp where
  hasSetChatMessage : Bool
  setChatMessageThrows : Bool

/-- Observable events of the `_on_error` callback. -/
inductive ErrEvent where
  | logDetectorError : String → ErrEvent
  | chatMessage : String → String → ErrEvent
  | logCallbackFailure
deriving DecidableEq, Repr

/-- The body of `_on_error` inside its `try` (lines 190-193): log the
detector error, then, when the sink exists, surface it as an assistant chat
message; `false` marks the body raising (only the sink call can). -/
def onErrorBody (app : ErrApp) (err : String) : List ErrEvent × Bool :=
  if app.hasSetChatMessage then
    if app.setChatMessageThrows then ([ErrEvent.logDetectorError err], false)
    else ([ErrEvent.logDetectorError err,
      ErrEvent.chatMessage "assistant" ("[唤醒词错误] " ++ err)], true)
  else ([ErrEvent.logDetectorError err], true)

/-- `_on_error` itself: the body under its `except` handler, which logs the
callback failure and returns normally — never an `Except.error`. -/
def onError (app : ErrApp) (err : String) : Except (List ErrEvent) (List ErrEvent) :=
  let r := onErrorBody app err
  Except.ok (r.1 ++ (if r.2 then [] else [ErrEvent.logCallbackFailure]))

/-- **C9.** The error callback never raises and always logs the detector
error; when the host exposes `set_chat_message` (and that call succeeds) the
error is also surfaced as an assistant chat message. -/
theorem onError_logs_and_surfaces (app : ErrApp) (err : String) :
    (∃ evs, onError app err = Except.ok evs ∧ ErrEvent.logDetectorError err ∈ evs) ∧
    (app.hasSetChatMessage = true → app.setChatMessageThrows = false →
      onError app err =
        Except.ok [ErrEvent.logDetectorError err,
          ErrEvent.chatMessage "assistant" ("[唤醒词错误] " ++ err)]) := by
  constructor
  · refine ⟨(onErrorBody app err).1 ++
      (if (onErrorBody app err).2 then [] else [ErrEvent.logCallbackFailure]), rfl, ?_⟩
    unfold onErrorBody
    by_cases h1 : app.hasSetChatMessage <;>
      by_cases h2 : app.setChatMessageThrows <;> simp [h1, h2]
  · intro h1 h2
    unfold onError onErrorBody
    simp [h1, h2]

/-- Witness for C9 at a sink-exposing, non-raising host and the error
`"boom"`. -/
theorem onError_logs_and_surfaces_witness :
    onError ⟨true, false⟩ "boom" =
      Except.ok [ErrEvent.logDetectorError "boom",
        ErrEvent.chatMessage "assistant" ("[唤醒词错误] " ++ "boom")] :=
  (onError_logs_and_surfaces ⟨true, false⟩ "boom").2 rfl rfl

end WakeWord
